import Mathlib

/-!
Verification development for the weekly grocery deal analyzer
(`deal_analyzer_enhanced.py`).  The Python code is shallowly embedded:
dictionaries become structures with optional fields, Python floats become
rationals (`ℚ`), Python strings become lists of characters, and each method
of `DealAnalyzer` becomes a Lean function of the analyzer's configuration
and retailer filter.  Non-numeric price amounts (which Python treats like
missing ones) are folded into `Option.none`.
-/

/-- Python strings are modelled as lists of characters. -/
abbrev Str := List Char

/-- Lowercase a string (ASCII, as in the data handled by the analyzer). -/
def toLowerStr (s : Str) : Str := s.map Char.toLower

/-- Uppercase a string (ASCII). -/
def toUpperStr (s : Str) : Str := s.map Char.toUpper

/-- Python `str.strip`: remove leading and trailing whitespace. -/
def strip (s : Str) : Str :=
  ((s.dropWhile Char.isWhitespace).reverse.dropWhile Char.isWhitespace).reverse

/-- Python substring containment `needle in hay`. -/
def isSubstr (needle hay : Str) : Bool :=
  needle.isPrefixOf hay ||
    match hay with
    | [] => false
    | _ :: t => isSubstr needle t

/-- `any(k in hay for k in kws)`. -/
def anySubstr (kws : List Str) (hay : Str) : Bool :=
  kws.any fun k => isSubstr k hay

/-- Truthiness of an optional string (Python: `None` and `""` are falsy). -/
def strTruthy : Option Str → Bool
  | some s => !s.isEmpty
  | none => false

/-- The character `.` (code 46). -/
def chDot : Char := Char.ofNat 46

/-- The character `$` (code 36). -/
def chDollar : Char := Char.ofNat 36

/-- The character `-` (code 45). -/
def chMinus : Char := Char.ofNat 45

/-- The character `0` (code 48). -/
def chZero : Char := Char.ofNat 48

/-- The character ` ` (code 32). -/
def chSpace : Char := Char.ofNat 32

/-- The character `_` (code 95). -/
def chUnderscore : Char := Char.ofNat 95

/-- Regex word character `\w`: letters, digits, underscore. -/
def isWordChar (c : Char) : Bool := c.isAlphanum || c == chUnderscore

/-- Numeric value of a digit string. -/
def digitsVal (s : Str) : ℕ := s.foldl (fun acc c => 10 * acc + (c.toNat - 48)) 0

/-- Python `round`: round a rational to the nearest integer, ties to even. -/
def pyRound (q : ℚ) : ℤ :=
  let f := ⌊q⌋
  let r := q - (f : ℚ)
  if r < 1/2 then f
  else if (1 : ℚ)/2 < r then f + 1
  else if f % 2 = 0 then f else f + 1

/-- Python `int(...)` on a number: truncation toward zero. -/
def pyTrunc (q : ℚ) : ℤ := if 0 ≤ q then ⌊q⌋ else -⌊-q⌋

/-- Decimal digit characters of a cent count `n`, as `intpart.fracpart`
with exactly two fractional digits (the body of Python `f"{x:.2f}"`). -/
def centsDigits (n : ℕ) : Str :=
  Nat.toDigits 10 (n / 100) ++ [chDot] ++
    (if n % 100 < 10 then [chZero] else []) ++ Nat.toDigits 10 (n % 100)

/-- Python `f"{x:.2f}"`: format with two decimals, rounding to the nearest
cent.  (Ties, which do not occur in the inputs considered here, are rounded
up rather than by the binary-float rule.) -/
def fmtTwoDec (q : ℚ) : Str :=
  if q < 0 then chMinus :: centsDigits (⌊-q * 100 + 1/2⌋).toNat
  else centsDigits (⌊q * 100 + 1/2⌋).toNat

/-- `multibuy_details`: per-field values, already coerced to their numeric
or textual types (a failed coercion in Python yields `None`, i.e. `none`). -/
structure MultibuyDetails where
  per_unit_cost : Option ℚ := none
  quantity_required : Option ℤ := none
  total_cost : Option ℚ := none
  format : Option Str := none
deriving DecidableEq

/-- The nested price dictionary of a deal record. -/
structure Price where
  amount : Option ℚ := none
  unit : Option Str := none
  display : Option Str := none
  is_multibuy : Bool := false
  multibuy_details : Option MultibuyDetails := none
  original_price : Option ℚ := none
  savings_amount : Option ℚ := none
  savings_percent : Option ℚ := none
deriving DecidableEq

/-- A deal record.  Python dictionaries are open maps, so the keys the
analyzer may add to a copy (`quantity_required`, `format`,
`multibuy_total_cost`, `multibuy_format`, `engagement_score`,
`category_group`, `is_priority`, `unit_price_amount`, `unit_price_unit`,
`unit_price_display`) are optional fields that are `none` on raw input. -/
structure Deal where
  deal_id : Option Str := none
  page : Option Str := none
  retailer : Option Str := none
  product_name : Option Str := none
  brand : Option Str := none
  category : Option Str := none
  price : Price := {}
  size_quantity : Option Str := none
  special_notes : Option Str := none
  quantity_required : Option ℤ := none
  format : Option Str := none
  multibuy_total_cost : Option ℚ := none
  multibuy_format : Option Str := none
  engagement_score : Option ℤ := none
  category_group : Option Str := none
  is_priority : Option Bool := none
  unit_price_amount : Option ℚ := none
  unit_price_unit : Option Str := none
  unit_price_display : Option Str := none
deriving DecidableEq

/-- One entry of `DealAnalyzerConfig.priority_deals` (the dict values, in
insertion order). -/
structure PriorityRule where
  keywords : List Str := []
  exclude_keywords : List Str := []
  max_price_per_lb : ℚ := 0
  category : List Str := []
  bonus_score : ℤ := 0
deriving DecidableEq

/-- `DealAnalyzerConfig`: immutable per-instance configuration. -/
structure DealAnalyzerConfig where
  store_brands : List Str := []
  excluded_categories : List Str := []
  supplement_keywords : List Str := []
  excluded_products : List Str := []
  priority_deals : List PriorityRule := []
  premium_keywords : List Str := []
  viral_keywords : List Str := []
  major_brands : List Str := []
  category_weights : List (Str × ℤ) := []
  dedupe : Bool := true
  balance_categories : Bool := true

/-- `DealAnalyzer._parse_display_unit`: infer a unit kind from the display
string when the unit field is absent. -/
def parse_display_unit (display : Str) : Option Str :=
  let d := toLowerStr display
  if isSubstr "per lb".toList d || isSubstr "/lb".toList d then some "lb".toList
  else if isSubstr "per pound".toList d then some "lb".toList
  else if isSubstr "per oz".toList d || isSubstr "/oz".toList d then some "oz".toList
  else if isSubstr "per fl oz".toList d || isSubstr "per floz".toList d
      || isSubstr "/fl oz".toList d then some "floz".toList
  else if isSubstr "each".toList d && isSubstr "per".toList d then some "each".toList
  else none

/-- Leading match of the regex `(\d+(?:\.\d+)?)`: the numeric value of the
match and the remainder of the string, or `none` if the string does not
start with a digit. -/
def parseNumMatch (s : Str) : Option (ℚ × Str) :=
  let ds := s.takeWhile Char.isDigit
  if ds.isEmpty then none
  else
    let rest := s.dropWhile Char.isDigit
    match rest with
    | c :: t =>
      let fs := t.takeWhile Char.isDigit
      if c == chDot && !fs.isEmpty then
        some ((digitsVal ds : ℚ) + (digitsVal fs : ℚ) / (10 : ℚ) ^ fs.length,
          t.dropWhile Char.isDigit)
      else some ((digitsVal ds : ℚ), rest)
    | [] => some ((digitsVal ds : ℚ), [])

/-- Search (anywhere in the string) for the regex `(\d+(?:\.\d+)?)` and
return the value of the leftmost match. -/
def parseNumSearch (s : Str) : Option ℚ :=
  match parseNumMatch (s.dropWhile (fun c => !c.isDigit)) with
  | some (v, _) => some v
  | none => none

/-- The non-numeric-token branches at the end of `normalize_unit`
(substring checks for floz/count, the each/ea and pack/bag/pkg synonyms,
and the unknown fallback). -/
def normalize_unit_tail (u : Str) : Str × Option ℚ × Str :=
  if isSubstr "floz".toList u || isSubstr "fl oz".toList u then
    ("floz".toList, parseNumSearch u, "floz".toList)
  else if isSubstr "count".toList u || u == "ct".toList then
    ("count".toList, parseNumSearch u, "count".toList)
  else if u == "each".toList || u == "ea".toList then
    ("each".toList, some 1, "each".toList)
  else if u == "pack".toList || u == "bag".toList || u == "pkg".toList then
    ("each".toList, some 1, "each".toList)
  else ("unknown".toList, none, "unknown".toList)

/-- `DealAnalyzer.normalize_unit`: `(kind, quantity, canonical_kind)`. -/
def normalize_unit (unit : Option Str) (display : Option Str) :
    Str × Option ℚ × Str :=
  let u0 := toLowerStr (strip (unit.getD []))
  let u :=
    if u0.isEmpty then
      match display with
      | some ds =>
        if ds.isEmpty then u0
        else match parse_display_unit ds with
          | some inferred => inferred
          | none => u0
      | none => u0
    else u0
  if u.isEmpty then ("unknown".toList, none, "unknown".toList)
  else if u == "lb".toList || u == "lbs".toList || u == "pound".toList
      || u == "pounds".toList then ("lb".toList, some 1, "lb".toList)
  else
    match parseNumMatch u with
    | some (num, rest) =>
      let tail := (strip rest).filter (fun c => c != chSpace)
      if tail == "lb".toList || tail == "lbs".toList || tail == "pound".toList
          || tail == "pounds".toList then ("lb".toList, some num, "lb".toList)
      else if tail == "oz".toList then ("oz".toList, some num, "lb".toList)
      else if tail == "floz".toList || tail == "fl.oz".toList
          || tail == "fl-oz".toList || tail == "fl oz".toList then
        ("floz".toList, some num, "floz".toList)
      else if tail == "count".toList || tail == "ct".toList then
        ("count".toList, some num, "count".toList)
      else normalize_unit_tail u
    | none => normalize_unit_tail u

/-- `DealAnalyzer._extract_multibuy_details`. -/
def extract_multibuy_details (deal : Deal) :
    Option ℚ × Option ℤ × Option ℚ × Option Str :=
  let price := deal.price
  if !price.is_multibuy then (none, none, none, none)
  else
    match price.multibuy_details with
    | none => (none, none, none, none)
    | some details =>
      (details.per_unit_cost, details.quantity_required,
       details.total_cost, details.format)

/-- `DealAnalyzer._apply_multibuy_overrides`: a shallow-copied deal with the
multibuy per-unit price applied; the original deal when the per-unit cost or
required quantity is unavailable. -/
def applyMultibuyOverrides (deal : Deal) : Deal :=
  match extract_multibuy_details deal with
  | (some per_unit, some qty_req, total, fmt) =>
    let unit := if strTruthy deal.price.unit then deal.price.unit.getD [] else "ea".toList
    let unit_disp :=
      if toLowerStr unit == "ea".toList || toLowerStr unit == "each".toList
      then "ea".toList else unit
    let price := { deal.price with
      amount := some per_unit,
      display := some (chDollar :: fmtTwoDec per_unit ++ chSpace :: unit_disp) }
    { deal with
      price := price,
      quantity_required := some qty_req,
      format := if strTruthy fmt && !strTruthy deal.format then fmt else deal.format,
      multibuy_total_cost := total,
      multibuy_format := fmt }
  | _ => deal

/-- `DealAnalyzer.compute_unit_price`:
`(unit_price_amount, unit_price_unit, unit_price_display)`. -/
def compute_unit_price (deal : Deal) : Option ℚ × Option Str × Option Str :=
  let deal1 := applyMultibuyOverrides deal
  match deal1.price.amount with
  | none => (none, none, none)
  | some amount =>
    let kq := normalize_unit deal1.price.unit deal1.price.display
    let kind := kq.1
    let qty := kq.2.1
    let canonical := kq.2.2
    if canonical == "lb".toList then
      match qty with
      | some q =>
        if kind == "lb".toList && q != 0 && 0 < q then
          let up := amount / q
          (some up, some "lb".toList, some (chDollar :: fmtTwoDec up ++ "/lb".toList))
        else if kind == "oz".toList && q != 0 && 0 < q then
          let up := amount / (q / 16)
          (some up, some "lb".toList, some (chDollar :: fmtTwoDec up ++ "/lb".toList))
        else if kind == "lb".toList && q = 0 then
          (some amount, some "lb".toList,
           some (chDollar :: fmtTwoDec amount ++ "/lb".toList))
        else (none, none, none)
      | none =>
        if kind == "lb".toList then
          (some amount, some "lb".toList,
           some (chDollar :: fmtTwoDec amount ++ "/lb".toList))
        else (none, none, none)
    else if canonical == "floz".toList then
      match qty with
      | some q =>
        if q != 0 && 0 < q then
          let up := amount / q
          (some up, some "fl oz".toList,
           some (chDollar :: fmtTwoDec up ++ "/fl oz".toList))
        else (none, none, none)
      | none => (none, none, none)
    else if canonical == "each".toList || canonical == "count".toList then
      match qty with
      | some q =>
        if q != 0 && 0 < q then
          let up := amount / q
          if canonical == "each".toList then
            (some up, some "each".toList,
             some (chDollar :: fmtTwoDec up ++ " ea".toList))
          else
            (some up, some "count".toList,
             some (chDollar :: fmtTwoDec up ++ "/count".toList))
        else if canonical == "each".toList then
          (some amount, some "each".toList,
           some (chDollar :: fmtTwoDec amount ++ " ea".toList))
        else (none, none, none)
      | none =>
        if canonical == "each".toList then
          (some amount, some "each".toList,
           some (chDollar :: fmtTwoDec amount ++ " ea".toList))
        else (none, none, none)
    else (none, none, none)

/-- The precompiled store-brand patterns: each configured brand, stripped,
empty ones skipped (the regex body is the escaped literal phrase). -/
def storeBrandPatterns (cfg : DealAnalyzerConfig) : List Str :=
  (cfg.store_brands.map strip).filter fun b => !b.isEmpty

/-- One position of the word-boundary regex `(?<!\w)pat(?!\w)`: `pat` occurs
here and the following character (if any) is not a word character. -/
def boundaryMatchAt (pat hay : Str) : Bool :=
  pat.isPrefixOf hay &&
    (match hay.drop pat.length with
     | [] => true
     | c :: _ => !isWordChar c)

/-- Scan of `re.search` for `(?<!\w)pat(?!\w)`: `prevOk` records whether the
character before the current position is absent or not a word character. -/
def boundarySearchGo (pat : Str) (prevOk : Bool) (hay : Str) : Bool :=
  (prevOk && boundaryMatchAt pat hay) ||
    match hay with
    | [] => false
    | c :: t => boundarySearchGo pat (!isWordChar c) t

/-- Case-insensitive word-boundary search of a store-brand pattern. -/
def patSearch (pat hay : Str) : Bool :=
  boundarySearchGo (toLowerStr pat) true (toLowerStr hay)

/-- `DealAnalyzer.get_exclusion_reason`: a short reason string if the deal
is excluded, else `none`.  `rf` is the analyzer's `retailer_filter`. -/
def get_exclusion_reason (rf : Option Str) (cfg : DealAnalyzerConfig)
    (deal : Deal) : Option Str :=
  match deal.price.amount with
  | none => some "missing_price_amount".toList
  | some price_amount =>
    if price_amount < 0 then some "invalid_negative_price".toList
    else
      let category := deal.category.getD []
      let cat_u := toUpperStr category
      if cfg.excluded_categories.contains category then
        some "excluded_category_alcohol".toList
      else if anySubstr ["ALCOHOL".toList, "BEER".toList, "WINE".toList,
          "SPIRITS".toList] cat_u then
        some "excluded_category_alcohol".toList
      else if (isSubstr "HEALTH".toList cat_u || isSubstr "BEAUTY".toList cat_u)
          && anySubstr (cfg.supplement_keywords)
               (toLowerStr (deal.product_name.getD [])) then
        some "excluded_supplement".toList
      else
        let product_name := deal.product_name.getD []
        let brand := deal.brand.getD []
        let combined_l := toLowerStr (product_name ++ chSpace :: brand)
        let brand_l := strip (toLowerStr brand)
        if cfg.store_brands.any
            (fun b => !brand_l.isEmpty && brand_l == toLowerStr b) then
          some "excluded_store_brand".toList
        else if (storeBrandPatterns cfg).any (fun pat => patSearch pat combined_l) then
          some "excluded_store_brand".toList
        else if anySubstr cfg.excluded_products (toLowerStr product_name)
            && anySubstr ["MEAT".toList, "DELI".toList, "SEAFOOD".toList] cat_u then
          some "excluded_product_keyword".toList
        else
          match rf with
          | some rfs =>
            if !rfs.isEmpty && deal.retailer != some rfs then
              some "filtered_out_by_retailer".toList
            else none
          | none => none

/-- `DealAnalyzer.should_exclude`. -/
def should_exclude (rf : Option Str) (cfg : DealAnalyzerConfig) (deal : Deal) :
    Bool :=
  (get_exclusion_reason rf cfg deal).isSome

/-- `DealAnalyzer.is_priority_deal`: the deal has a normalized price per
pound and some configured priority rule matches fully. -/
def is_priority_deal (cfg : DealAnalyzerConfig) (deal : Deal) : Bool :=
  let product_name := toLowerStr (deal.product_name.getD [])
  let category := deal.category.getD []
  let u := compute_unit_price deal
  match u.1, u.2.1 with
  | some unit_price_amount, some unit_price_unit =>
    if unit_price_unit != "lb".toList then false
    else cfg.priority_deals.any fun criteria =>
      criteria.category.contains category &&
      !(criteria.max_price_per_lb < unit_price_amount) &&
      anySubstr criteria.keywords product_name &&
      !anySubstr criteria.exclude_keywords product_name
  | _, _ => false

/-- The rule scan inside `get_priority_bonus`: the bonus of the first rule
whose keywords match the (lowercased) product name with no exclude-keyword
present; 0 when no rule matches this way. -/
def priorityBonusScan (product_name : Str) : List PriorityRule → ℤ
  | [] => 0
  | criteria :: rest =>
    if anySubstr criteria.keywords product_name
        && !anySubstr criteria.exclude_keywords product_name
    then criteria.bonus_score
    else priorityBonusScan product_name rest

/-- `DealAnalyzer.get_priority_bonus`: 0 for non-priority deals; otherwise
the bonus of the first rule whose keywords match the product name with no
exclude-keyword present (category and price are not re-checked here). -/
def get_priority_bonus (cfg : DealAnalyzerConfig) (deal : Deal) : ℤ :=
  if !is_priority_deal cfg deal then 0
  else priorityBonusScan (toLowerStr (deal.product_name.getD [])) cfg.priority_deals

/-- `DealAnalyzer._effective_price_for_scoring`: the comparable unit price
when available, otherwise the raw amount (0 when missing). -/
def effective_price_for_scoring (deal : Deal) : ℚ :=
  let deal_eff := applyMultibuyOverrides deal
  let price_amount := deal_eff.price.amount.getD 0
  let u := compute_unit_price deal_eff
  match u.1, u.2.1 with
  | some up, some _ => up
  | _, _ => price_amount

/-- The round-number endings checked by the viral pricing bonus, exactly as
listed in the source. -/
def roundEndings : List Str :=
  ["0.99".toList, "1.99".toList, "2.49".toList, "2.99".toList,
   "4.99".toList, "9.99".toList]

/-- Python `s.endswith(t)`. -/
def endsWithStr (s t : Str) : Bool := t.isSuffixOf s

/-- `DealAnalyzer.calculate_viral_pricing_score` (0-30). -/
def calculate_viral_pricing_score (deal : Deal) : ℤ :=
  let price_eff := effective_price_for_scoring deal
  let score : ℤ :=
    if price_eff < 1 then 30
    else if price_eff ≤ 2.99 then 20
    else if price_eff ≤ 4.99 then 10
    else 0
  let score : ℤ :=
    match deal.price.amount with
    | some raw_amount =>
      if roundEndings.any (fun e => endsWithStr (fmtTwoDec raw_amount) e)
      then score + 8 else score
    | none => score
  let score : ℤ := if deal.price.is_multibuy then score + 15 else score
  let score : ℤ :=
    match deal.price.savings_percent with
    | some savings_pct =>
      if 50 ≤ savings_pct then score + 12
      else if 30 ≤ savings_pct then score + 8
      else score
    | none => score
  min score 30

/-- `DealAnalyzer.calculate_discount_depth` (0-20). -/
def calculate_discount_depth (deal : Deal) : ℤ :=
  match deal.price.savings_percent with
  | some savings_pct =>
    pyTrunc (min 20 (max 0 ((savings_pct - 5) * (20 / 55))))
  | none =>
    match deal.price.original_price, deal.price.amount with
    | some orig, some amt =>
      if 0 < orig && 0 ≤ amt then
        let inferred_pct := (orig - amt) / orig * 100
        pyTrunc (min 20 (max 0 ((inferred_pct - 5) * (20 / 55))))
      else 0
    | _, _ => 0

/-- `DealAnalyzer.calculate_category_weight`: table lookup, default 5. -/
def calculate_category_weight (cfg : DealAnalyzerConfig) (deal : Deal) : ℤ :=
  ((cfg.category_weights.lookup (deal.category.getD [])).getD 5)

/-- `DealAnalyzer.calculate_premium_value`. -/
def calculate_premium_value (cfg : DealAnalyzerConfig) (deal : Deal) : ℤ :=
  let product_name := toLowerStr (deal.product_name.getD [])
  let special_notes := toLowerStr (deal.special_notes.getD [])
  let brand := toLowerStr (deal.brand.getD [])
  let combined := product_name ++ chSpace :: special_notes ++ chSpace :: brand
  if anySubstr cfg.premium_keywords combined then 25
  else if anySubstr ["doritos".toList, "hershey".toList, "outshine".toList,
      "ben & jerry".toList, "reese\x27s".toList] combined then 20
  else if isSubstr "organic".toList combined then 18
  else
    match deal.price.savings_percent with
    | some savings_pct => if 30 ≤ savings_pct then 15 else 5
    | none => 5

/-- `DealAnalyzer.calculate_social_appeal`. -/
def calculate_social_appeal (cfg : DealAnalyzerConfig) (deal : Deal) : ℤ :=
  let product_name := toLowerStr (deal.product_name.getD [])
  let special_notes := toLowerStr (deal.special_notes.getD [])
  let combined := product_name ++ chSpace :: special_notes
  if anySubstr cfg.viral_keywords combined then 20
  else if anySubstr ["cotton candy".toList, "dekopon".toList, "sumo".toList,
      "dumpling".toList, "truffle".toList, "artisan".toList, "heritage".toList,
      "heirloom".toList, "specialty".toList, "gourmet".toList] combined then 18
  else if anySubstr ["chicken nugget".toList, "drumstick".toList,
      "popsicle".toList, "fruit bar".toList, "cookie".toList,
      "mac and cheese".toList, "pizza".toList, "lunchable".toList] combined then 12
  else if anySubstr ["entrée".toList, "meal".toList, "dinner".toList,
      "ready to eat".toList, "prepared".toList] combined then 10
  else if anySubstr ["party".toList, "entertaining".toList,
      "celebration".toList, "game day".toList] combined then 15
  else 5

/-- `DealAnalyzer.calculate_brand_recognition`. -/
def calculate_brand_recognition (cfg : DealAnalyzerConfig) (deal : Deal) : ℤ :=
  let product_name := toLowerStr (deal.product_name.getD [])
  let brand := toLowerStr (deal.brand.getD [])
  let combined := product_name ++ chSpace :: brand
  if anySubstr cfg.major_brands combined then 10
  else if anySubstr ["boar\x27s head".toList, "tillamook".toList,
      "kerrygold".toList, "dave\x27s killer".toList] combined then 8
  else 5

/-- `DealAnalyzer.calculate_total_score`: sum of the seven components. -/
def calculate_total_score (cfg : DealAnalyzerConfig) (deal : Deal) : ℤ :=
  calculate_viral_pricing_score deal
    + calculate_discount_depth deal
    + calculate_category_weight cfg deal
    + calculate_premium_value cfg deal
    + calculate_social_appeal cfg deal
    + calculate_brand_recognition cfg deal
    + get_priority_bonus cfg deal

/-- `DealAnalyzer.categorize_deal`: one of the three category groups. -/
def categorize_deal (deal : Deal) : Str :=
  let category := toUpperStr (deal.category.getD [])
  if isSubstr "MEAT".toList category || isSubstr "SEAFOOD".toList category
      || isSubstr "DELI".toList category then "Meat/Seafood".toList
  else if isSubstr "PRODUCE".toList category then "Produce".toList
  else "Snacks/Other".toList

/-- The composite dedup key of `DealAnalyzer._dedupe_deals`.  The numeric
and optional components are kept as values rather than `str(...)` images;
equality of the keys coincides with equality of the Python string tuples. -/
abbrev DedupKey := Str × Str × Str × Str × Option ℚ × Option Str × Str × Option Str

/-- Dedup key of one deal. -/
def dealKey (d : Deal) : DedupKey :=
  (toUpperStr (strip (d.retailer.getD [])),
   toLowerStr (strip (d.product_name.getD [])),
   toUpperStr (strip (d.category.getD [])),
   strip (d.price.display.getD []),
   d.price.amount,
   d.price.unit,
   toLowerStr (strip (d.size_quantity.getD [])),
   d.page)

/-- The loop of `_dedupe_deals`: keep the first occurrence of each key. -/
def dedupeGo (seen : List DedupKey) : List Deal → List Deal
  | [] => []
  | d :: t =>
    if dealKey d ∈ seen then dedupeGo seen t
    else d :: dedupeGo (dealKey d :: seen) t

/-- `DealAnalyzer._dedupe_deals`: identity when the toggle is disabled. -/
def dedupeDeals (cfg : DealAnalyzerConfig) (deals : List Deal) : List Deal :=
  if cfg.dedupe then dedupeGo [] deals else deals

/-- The tie-break key `(-score, -priority, -savings, unitPrice, amount)`;
`none` in the last two components stands for `float("inf")`. -/
abbrev TBKey := ℤ × ℤ × ℚ × Option ℚ × Option ℚ

/-- Strict `<` on optional rationals with `none` as positive infinity. -/
def qltInf : Option ℚ → Option ℚ → Bool
  | some a, some b => a < b
  | some _, none => true
  | none, _ => false

/-- `tie_break_key` of `analyze_deals`. -/
def tieBreakKey (d : Deal) : TBKey :=
  let savings_pct_v : ℚ := (d.price.savings_percent).getD (-1)
  (-(d.engagement_score.getD 0),
   -(if d.is_priority.getD false then 1 else 0),
   -savings_pct_v,
   d.unit_price_amount,
   d.price.amount)

/-- Lexicographic strict comparison of tie-break keys (Python tuple `<`). -/
def tbLT (a b : TBKey) : Bool :=
  if a.1 < b.1 then true else if b.1 < a.1 then false
  else if a.2.1 < b.2.1 then true else if b.2.1 < a.2.1 then false
  else if a.2.2.1 < b.2.2.1 then true else if b.2.2.1 < a.2.2.1 then false
  else if qltInf a.2.2.2.1 b.2.2.2.1 then true
  else if qltInf b.2.2.2.1 a.2.2.2.1 then false
  else qltInf a.2.2.2.2 b.2.2.2.2

/-- Non-strict comparison used for the stable sorts by tie-break key. -/
def dealLE (a b : Deal) : Bool := !tbLT (tieBreakKey b) (tieBreakKey a)

/-- The scored-and-annotated copy built for each surviving deal in
`analyze_deals` (score and priority bonus are computed on the
multibuy-override copy, category group / priority flag / unit price on the
original record, which applies the override itself where relevant). -/
def processDeal (cfg : DealAnalyzerConfig) (deal : Deal) : Deal :=
  let deal_eff := applyMultibuyOverrides deal
  let score := calculate_total_score cfg deal_eff
  let u := compute_unit_price deal
  { deal_eff with
    engagement_score := some score,
    category_group := some (categorize_deal deal),
    is_priority := some (is_priority_deal cfg deal),
    unit_price_amount := u.1,
    unit_price_unit := u.2.1,
    unit_price_display := u.2.2 }

/-- The processed survivors of the scoring loop of `analyze_deals`, in input
order: each deduped record is replaced by its multibuy-override copy, kept
only if the exclusion filter (on the override copy) keeps it, and annotated
with its derived fields. -/
def survivorsFrom (rf : Option Str) (cfg : DealAnalyzerConfig)
    (deals : List Deal) : List Deal :=
  deals.filterMap fun deal =>
    if should_exclude rf cfg (applyMultibuyOverrides deal) then none
    else some (processDeal cfg deal)

/-- The three category groups, in fixed order. -/
def categoriesList : List Str :=
  ["Meat/Seafood".toList, "Produce".toList, "Snacks/Other".toList]

/-- Bucket of one category group (in sorted order of the scored deals). -/
def groupOf (scored : List Deal) (c : Str) : List Deal :=
  scored.filter fun d => d.category_group.getD [] == c

/-- Total of the three allocations. -/
def allocTotal (al : Str → ℕ) : ℕ := (categoriesList.map al).sum

/-- One step of the candidate search of the under-allocation loop. -/
def bestStep (groups : Str → List Deal) (avail al : Str → ℕ)
    (best : Option (Str × Deal)) (c : Str) : Option (Str × Deal) :=
  if al c < avail c then
    match (groups c).get? (al c) with
    | some cand =>
      match best with
      | some (_, bd) =>
        if tbLT (tieBreakKey cand) (tieBreakKey bd) then some (c, cand)
        else best
      | none => some (c, cand)
    | none => best
  else best

/-- Candidate search of the under-allocation loop: across categories with
unused inventory, the single best next-ranked unallocated deal. -/
def bestNextCat (groups : Str → List Deal) (avail al : Str → ℕ) :
    Option Str :=
  (categoriesList.foldl (bestStep groups avail al) none).map Prod.fst

/-- One step of the candidate search of the over-allocation loop. -/
def worstStep (groups : Str → List Deal) (al : Str → ℕ)
    (worst : Option (Str × Deal)) (c : Str) : Option (Str × Deal) :=
  if 0 < al c then
    match (groups c).get? (al c - 1) with
    | some item =>
      match worst with
      | some (_, wd) =>
        if tbLT (tieBreakKey wd) (tieBreakKey item) then some (c, item)
        else worst
      | none => some (c, item)
    | none => worst
  else worst

/-- Candidate search of the over-allocation loop: across categories with a
nonzero allocation, the single worst currently-allocated deal. -/
def worstAllocCat (groups : Str → List Deal) (al : Str → ℕ) : Option Str :=
  (categoriesList.foldl (worstStep groups al) none).map Prod.fst

/-- Bump one category's allocation. -/
def bumpAlloc (al : Str → ℕ) (c : Str) : Str → ℕ :=
  fun x => if x = c then al x + 1 else al x

/-- Decrement one category's allocation. -/
def decAlloc (al : Str → ℕ) (c : Str) : Str → ℕ :=
  fun x => if x = c then al x - 1 else al x

/-- The `while allocated_total() < remaining_slots` correction loop.  Each
iteration adds one slot, so `slots` steps of fuel always suffice. -/
def addLoopGo (slots : ℕ) (groups : Str → List Deal) (avail : Str → ℕ) :
    (Str → ℕ) → ℕ → (Str → ℕ)
  | al, 0 => al
  | al, fuel + 1 =>
    if allocTotal al < slots then
      match bestNextCat groups avail al with
      | some c => addLoopGo slots groups avail (bumpAlloc al c) fuel
      | none => al
    else al

/-- The `while allocated_total() > remaining_slots` correction loop.  Each
iteration removes one slot, so the initial total always suffices as fuel. -/
def removeLoopGo (slots : ℕ) (groups : Str → List Deal) :
    (Str → ℕ) → ℕ → (Str → ℕ)
  | al, 0 => al
  | al, fuel + 1 =>
    if slots < allocTotal al then
      match worstAllocCat groups al with
      | some c => removeLoopGo slots groups (decAlloc al c) fuel
      | none => al
    else al

/-- The backfill loop: append further scored deals (skipping identifiers
already present in the initially added list) until the slots are filled. -/
def backfillGo (ids : List (Option Str)) (slots : ℕ) :
    List Deal → List Deal → List Deal
  | acc, [] => acc
  | acc, d :: rest =>
    if slots ≤ acc.length then acc
    else if d.deal_id ∈ ids then backfillGo ids slots acc rest
    else backfillGo ids slots (acc ++ [d]) rest

/-- The proportional base allocation of step 7:
`round(remaining_slots * bucketSize / totalOtherInventory)` for buckets with
nonzero inventory, 0 otherwise. -/
def baseAlloc (avail : Str → ℕ) (slots : ℕ) : Str → ℕ := fun c =>
  if avail c ≠ 0 then
    (pyRound ((slots : ℚ) * ((avail c : ℚ) / ((allocTotal avail : ℕ) : ℚ)))).toNat
  else 0

/-- The base allocation clamped to each bucket's inventory. -/
def clampedAlloc (avail : Str → ℕ) (slots : ℕ) : Str → ℕ := fun c =>
  min (baseAlloc avail slots c) (avail c)

/-- The clamped allocation after the two correction loops. -/
def correctedAlloc (groups : Str → List Deal) (avail : Str → ℕ) (slots : ℕ) :
    Str → ℕ :=
  let a1 :=
    if allocTotal (clampedAlloc avail slots) < slots then
      addLoopGo slots groups avail (clampedAlloc avail slots) slots
    else clampedAlloc avail slots
  if slots < allocTotal a1 then removeLoopGo slots groups a1 (allocTotal a1)
  else a1

/-- The allocation of step 7 of the selector: all zero when there is no
inventory, otherwise base allocation, clamp, correction loops. -/
def balancedAlloc (groups : Str → List Deal) (avail : Str → ℕ) (slots : ℕ) :
    Str → ℕ :=
  if 0 < allocTotal avail then correctedAlloc groups avail slots
  else fun _ => 0

/-- The balanced `added` list of step 7 of the selector: the allocation,
per-bucket takes in fixed category order, then backfill. -/
def balancedAdded (scored_sorted : List Deal) (slots : ℕ) : List Deal :=
  let groups := fun c => groupOf scored_sorted c
  let avail := fun c => (groups c).length
  let al := balancedAlloc groups avail slots
  let added0 := (categoriesList.map fun c => (groups c).take (al c)).flatten
  if added0.length < slots then
    backfillGo (added0.map fun d => d.deal_id) slots added0 scored_sorted
  else added0

/-- Python `lst[:n]` for an arbitrary (possibly negative) integer `n`. -/
def pySlice (n : ℤ) (l : List α) : List α :=
  if 0 ≤ n then l.take n.toNat else l.take (l.length - (-n).toNat)

/-- Steps 3-8 of the selector, applied to the processed survivors. -/
def selectTop (survivors : List Deal) (top_n : ℤ) (balance : Bool) :
    List Deal :=
  let scored_deals := survivors.filter fun d => !(d.is_priority.getD false)
  let priority_deals := survivors.filter fun d => d.is_priority.getD false
  if scored_deals.isEmpty && priority_deals.isEmpty then []
  else
    let scored_sorted := scored_deals.mergeSort dealLE
    let priority_sorted := priority_deals.mergeSort dealLE
    let top_deals := priority_sorted
    let remaining_slots : ℤ := max 0 (top_n - top_deals.length)
    if remaining_slots ≤ 0 then pySlice top_n top_deals
    else if !balance then
      pySlice top_n (top_deals ++ scored_sorted.take remaining_slots.toNat)
    else
      let added := balancedAdded scored_sorted remaining_slots.toNat
      pySlice top_n ((top_deals ++ added).mergeSort dealLE)

/-- `DealAnalyzer.analyze_deals`: dedup, filter, score, category-balanced
top-N selection. -/
def analyze_deals (rf : Option Str) (cfg : DealAnalyzerConfig)
    (deals : List Deal) (top_n : ℤ) (balance_categories : Option Bool) :
    List Deal :=
  let deals1 := dedupeDeals cfg deals
  if deals1.isEmpty then []
  else
    let balance := balance_categories.getD cfg.balance_categories
    let deals2 := dedupeDeals cfg deals1
    selectTop (survivorsFrom rf cfg deals2) top_n balance

/-- `DealAnalyzer.analyze_deals_debug`: kept/excluded split computed on the
raw deduped records, then `analyze_deals` on the kept ones. -/
def analyze_deals_debug (rf : Option Str) (cfg : DealAnalyzerConfig)
    (deals : List Deal) (top_n : ℤ) (balance_categories : Option Bool) :
    List Deal × List (Deal × Str) :=
  let deals1 := dedupeDeals cfg deals
  let excluded := deals1.filterMap fun d =>
    (get_exclusion_reason rf cfg d).map fun reason => (d, reason)
  let kept := deals1.filter fun d => (get_exclusion_reason rf cfg d).isNone
  (analyze_deals rf cfg kept top_n balance_categories, excluded)

/-- The default `DealAnalyzerConfig()` contents, transcribed from the
source (the keyword sets keep their source order; apostrophes are written
as the escape `\x27`). -/
def defaultConfig : DealAnalyzerConfig := {
  store_brands := [
    "Amazon Grocery".toList, "Amazon Kitchen".toList, "Amazon Fresh".toList,
    "365 Brand".toList, "365 by Whole Foods".toList, "365 Everyday Value".toList,
    "Kirkland".toList, "Great Value".toList, "Market Pantry".toList,
    "Simple Truth".toList, "O Organics".toList, "Kroger".toList,
    "Target".toList, "Safeway SELECT".toList,
    "First Street".toList,
    "H-E-B".toList, "Hill Country Fare".toList, "Central Market".toList,
    "Higher Harvest".toList, "HEB".toList,
    "Sprouts".toList, "Real Root by Sprouts".toList,
    "Sprouts Farmers Market".toList,
    "Albertsons".toList, "Vons".toList, "Pavilions".toList,
    "Ralphs".toList, "Food Lion".toList],
  excluded_categories := [
    "Beer, Wine & Spirits".toList, "ALCOHOL".toList, "BEVERAGES_ALCOHOL".toList],
  supplement_keywords := [
    "supplement".toList, "vitamin".toList, "pill".toList, "capsule".toList,
    "tablet".toList, "probiotic".toList, "greens powder".toList,
    "protein powder".toList, "multivitamin".toList, "omega-3".toList,
    "turmeric".toList, "ashwagandha".toList, "collagen".toList,
    "magnesium".toList, "zinc".toList, "elderberry".toList],
  excluded_products := [
    "hot dog".toList, "hotdog".toList, "hot dogs".toList, "hotdogs".toList,
    "franks".toList, "wiener".toList, "wieners".toList],
  priority_deals := [
    { keywords := ["chicken breast".toList, "chicken thigh".toList,
        "chicken thighs".toList],
      exclude_keywords := ["boneless skinless chicken breast meal".toList,
        "rotisserie".toList],
      max_price_per_lb := 3.00,
      category := ["MEAT".toList, "Meat".toList, "Meat & Seafood".toList],
      bonus_score := 30 },
    { keywords := ["steak".toList, "ribeye".toList, "sirloin".toList,
        "ny strip".toList, "t-bone".toList, "porterhouse".toList,
        "flank".toList, "skirt".toList, "filet".toList],
      exclude_keywords := ["salisbury".toList, "patties".toList,
        "burger".toList],
      max_price_per_lb := 10.00,
      category := ["MEAT".toList, "Meat".toList, "Meat & Seafood".toList],
      bonus_score := 25 },
    { keywords := ["ground beef".toList, "ground chuck".toList,
        "hamburger".toList],
      exclude_keywords := ["patties".toList, "burger patty".toList,
        "ground turkey".toList],
      max_price_per_lb := 6.00,
      category := ["MEAT".toList, "Meat".toList, "Meat & Seafood".toList],
      bonus_score := 20 }],
  premium_keywords := [
    "ribeye".toList, "prime rib".toList, "flank steak".toList,
    "sirloin".toList, "filet mignon".toList, "ny strip".toList,
    "porterhouse".toList, "wagyu".toList, "angus".toList,
    "grass-fed".toList, "organic chicken".toList, "air-chilled".toList,
    "heritage pork".toList,
    "salmon".toList, "atlantic salmon".toList, "king salmon".toList,
    "sockeye".toList, "shrimp".toList, "jumbo shrimp".toList,
    "scallops".toList, "crab".toList, "lobster".toList, "halibut".toList,
    "sea bass".toList, "ahi tuna".toList, "swordfish".toList,
    "honeycrisp".toList, "cotton candy grape".toList, "dekopon".toList,
    "sumo citrus".toList, "organic".toList, "heirloom".toList,
    "persimmon".toList, "dragon fruit".toList, "artisan".toList,
    "specialty mushroom".toList, "truffle".toList],
  viral_keywords := [
    "cotton candy".toList, "party pack".toList, "family size".toList,
    "jumbo".toList, "giant".toList, "mega".toList, "ultimate".toList,
    "variety pack".toList, "assorted".toList, "party size".toList,
    "super bowl".toList, "game day".toList, "tailgate".toList,
    "celebration".toList, "viral".toList, "tiktok".toList,
    "trending".toList],
  major_brands := [
    "doritos".toList, "lays".toList, "cheetos".toList, "fritos".toList,
    "ruffles".toList, "tostitos".toList, "pringles".toList,
    "kettle".toList, "popchips".toList, "smartfood".toList,
    "pirates booty".toList,
    "coca-cola".toList, "coke".toList, "pepsi".toList, "sprite".toList,
    "mountain dew".toList, "dr pepper".toList, "7up".toList,
    "canada dry".toList, "schweppes".toList, "crush".toList,
    "capri sun".toList, "gatorade".toList, "powerade".toList,
    "vitamin water".toList,
    "hershey".toList, "reese\x27s".toList, "kit kat".toList,
    "m&m".toList, "snickers".toList, "twix".toList, "milky way".toList,
    "skittles".toList, "starburst".toList, "sour patch".toList,
    "haribo".toList,
    "ben & jerry".toList, "breyer".toList, "haagen-dazs".toList,
    "talenti".toList, "outshine".toList, "drumstick".toList,
    "klondike".toList, "good humor".toList, "magnum".toList,
    "dannon".toList, "chobani".toList, "yoplait".toList, "fage".toList,
    "siggi".toList, "oikos".toList, "tillamook".toList,
    "kerrygold".toList, "organic valley".toList, "horizon".toList,
    "tyson".toList, "perdue".toList, "foster farms".toList,
    "applegate".toList, "hormel".toList, "oscar mayer".toList,
    "hillshire farm".toList, "jimmy dean".toList, "butterball".toList,
    "kraft".toList, "philadelphia".toList, "velveeta".toList,
    "barilla".toList, "prego".toList, "ragu".toList,
    "newman\x27s own".toList, "rao\x27s".toList, "classico".toList,
    "bertolli".toList, "general mills".toList, "kellogg".toList,
    "quaker".toList, "post".toList, "nabisco".toList, "oreo".toList,
    "chips ahoy".toList, "ritz".toList, "triscuit".toList,
    "wheat thins".toList, "dave\x27s killer bread".toList,
    "artesano".toList, "bimbo".toList,
    "annie\x27s".toList, "stonyfield".toList, "nature\x27s path".toList,
    "kashi".toList, "amy\x27s".toList, "dr praeger".toList,
    "gardein".toList, "beyond meat".toList],
  category_weights := [
    ("MEAT".toList, 25), ("Meat".toList, 25), ("Meat & Seafood".toList, 25),
    ("SEAFOOD".toList, 25), ("Seafood".toList, 25),
    ("DELI".toList, 20), ("Deli".toList, 20),
    ("PRODUCE".toList, 25), ("Produce".toList, 25),
    ("Fresh Produce".toList, 25), ("Organic Produce".toList, 25),
    ("SNACKS".toList, 20), ("Snacks".toList, 20),
    ("BEVERAGES".toList, 20), ("Beverages".toList, 20),
    ("Drinks".toList, 20),
    ("FROZEN".toList, 15), ("Frozen".toList, 15),
    ("Frozen Foods".toList, 15), ("Ice Cream".toList, 18),
    ("PREPARED_FOODS".toList, 15), ("Prepared Foods".toList, 15),
    ("Ready to Eat".toList, 15),
    ("DAIRY_EGGS".toList, 12), ("Dairy".toList, 12),
    ("Dairy & Eggs".toList, 12),
    ("BAKERY".toList, 12), ("Bakery".toList, 12),
    ("Commercial Bakery".toList, 10), ("Fresh Bakery".toList, 12),
    ("PANTRY".toList, 10), ("Pantry".toList, 10), ("Grocery".toList, 10),
    ("Canned Goods".toList, 8),
    ("HOUSEHOLD".toList, 5), ("Household".toList, 5),
    ("Cleaning".toList, 5), ("Paper Products".toList, 5),
    ("HEALTH_BEAUTY".toList, 5), ("Health & Beauty".toList, 5),
    ("Personal Care".toList, 5),
    ("PET".toList, 5), ("Pet".toList, 5), ("Pet Supplies".toList, 5)],
  dedupe := true,
  balance_categories := true }

/-- Modelled from the spec (PriorityDetector, §4.4): the rule scan for the
bonus as the spec words it, i.e. the first rule that matches FULLY (category,
max price per pound, keyword, and no exclude-keyword). -/
def specPriorityBonusScan (category : Str) (unit_price_amount : ℚ)
    (product_name : Str) : List PriorityRule → ℤ
  | [] => 0
  | r :: rest =>
    if r.category.contains category && !(r.max_price_per_lb < unit_price_amount)
        && anySubstr r.keywords product_name
        && !anySubstr r.exclude_keywords product_name
    then r.bonus_score
    else specPriorityBonusScan category unit_price_amount product_name rest

/-- Modelled from the spec (PriorityDetector, §4.4): the priority bonus as
the spec words it — the first FULLY matching rule's configured bonus score,
0 if none match. -/
def specPriorityBonus (cfg : DealAnalyzerConfig) (deal : Deal) : ℤ :=
  let u := compute_unit_price deal
  match u.1, u.2.1 with
  | some amt, some unit =>
    if unit == "lb".toList then
      specPriorityBonusScan (deal.category.getD []) amt
        (toLowerStr (deal.product_name.getD [])) cfg.priority_deals
    else 0
  | _, _ => 0

/-- Modelled from the spec (Scorer, DiscountDepth, §4.5): the discount-depth
sub-score as the spec words it, with `round` meaning rounding to the nearest
integer. -/
def discountDepthSpec (deal : Deal) : ℤ :=
  match deal.price.savings_percent with
  | some savings_pct =>
    max 0 (min 20 (pyRound ((savings_pct - 5) * (20 / 55))))
  | none =>
    match deal.price.original_price, deal.price.amount with
    | some orig, some amt =>
      if 0 < orig then
        max 0 (min 20 (pyRound (((orig - amt) / orig * 100 - 5) * (20 / 55))))
      else 0
    | _, _ => 0

/-- Modelled from the spec (Scorer, ViralPricing, §4.5): the spec's list of
round-number endings, whose first entry is ".99". -/
def specRoundEndings : List Str :=
  [".99".toList, "1.99".toList, "2.49".toList, "2.99".toList,
   "4.99".toList, "9.99".toList]

/-- Modelled from the spec (Scorer, ViralPricing, §4.5): the viral-pricing
sub-score as the spec words it (identical to the code except that the
round-number endings are the spec's list). -/
def viralPricingSpec (deal : Deal) : ℤ :=
  let price_eff := effective_price_for_scoring deal
  let score : ℤ :=
    if price_eff < 1 then 30
    else if price_eff ≤ 2.99 then 20
    else if price_eff ≤ 4.99 then 10
    else 0
  let score : ℤ :=
    match deal.price.amount with
    | some raw_amount =>
      if specRoundEndings.any (fun e => endsWithStr (fmtTwoDec raw_amount) e)
      then score + 8 else score
    | none => score
  let score : ℤ := if deal.price.is_multibuy then score + 15 else score
  let score : ℤ :=
    match deal.price.savings_percent with
    | some savings_pct =>
      if 50 ≤ savings_pct then score + 12
      else if 30 ≤ savings_pct then score + 8
      else score
    | none => score
  min score 30

/-- The price-band tier of the viral pricing score. -/
def viralTier (deal : Deal) : ℤ :=
  let price_eff := effective_price_for_scoring deal
  if price_eff < 1 then 30
  else if price_eff ≤ 2.99 then 20
  else if price_eff ≤ 4.99 then 10
  else 0

/-- The round-number bonus of the viral pricing score (code endings). -/
def viralRoundBonus (deal : Deal) : ℤ :=
  match deal.price.amount with
  | some raw_amount =>
    if roundEndings.any (fun e => endsWithStr (fmtTwoDec raw_amount) e)
    then 8 else 0
  | none => 0

/-- The multibuy bonus of the viral pricing score. -/
def viralMultibuyBonus (deal : Deal) : ℤ :=
  if deal.price.is_multibuy then 15 else 0

/-- The savings-percent bonus of the viral pricing score. -/
def viralSavingsBonus (deal : Deal) : ℤ :=
  match deal.price.savings_percent with
  | some savings_pct =>
    if 50 ≤ savings_pct then 12
    else if 30 ≤ savings_pct then 8
    else 0
  | none => 0

/-- Concrete inputs used by the counterexamples and witnesses below. -/
def c2price : Price := { amount := some (5 : ℚ), unit := some "lb".toList }

/-- A deal matching the ground-beef rule fully but the chicken-breast rule
only by keyword (its price per pound is above the chicken cap). -/
def c2deal : Deal :=
  { product_name := some "chicken breast and ground beef blend".toList,
    category := some "MEAT".toList,
    price := c2price }

/-- A deal with `savings_percent = 10`. -/
def c4dealTen : Deal := { price := { savings_percent := some (10 : ℚ) } }

/-- A deal with `savings_percent = 55`. -/
def c4dealFiftyFive : Deal := { price := { savings_percent := some (55 : ℚ) } }

/-- A deal priced at `$3.99`. -/
def c5deal : Deal := { price := { amount := some (399/100 : ℚ) } }

/-- A deal with price amount `4.99` and unit `"3lb"`. -/
def c8deal : Deal :=
  { price := { amount := some (499/100 : ℚ), unit := some "3lb".toList } }

/-- A deal in category `Beer & Wine` whose price amount is missing. -/
def c6deal : Deal :=
  { category := some "Beer & Wine".toList, price := { amount := none } }

/-- A surviving, non-priority deal used by the C3 instances. -/
def c3deal : Deal := { product_name := some "z".toList, price := { amount := some (1 : ℚ) } }

/-- The processed survivors of the full pipeline (the records scored by
`analyze_deals` after both dedup passes and exclusion filtering). -/
def pipelineSurvivors (rf : Option Str) (cfg : DealAnalyzerConfig)
    (deals : List Deal) : List Deal :=
  survivorsFrom rf cfg (dedupeDeals cfg (dedupeDeals cfg deals))

/-- The priority partition of the pipeline survivors. -/
def pipelinePriority (rf : Option Str) (cfg : DealAnalyzerConfig)
    (deals : List Deal) : List Deal :=
  (pipelineSurvivors rf cfg deals).filter fun d => d.is_priority.getD false

/-- A single-rule configuration for the C1 witness. -/
def c1rule : PriorityRule :=
  { keywords := ["beef".toList], exclude_keywords := [],
    max_price_per_lb := 10, category := ["MEAT".toList], bonus_score := 20 }

/-- Configuration holding only the C1 witness rule. -/
def c1cfg : DealAnalyzerConfig := { priority_deals := [c1rule] }

/-- Price of the C1 witness deal: $5 per pound. -/
def c1price : Price := { amount := some (5 : ℚ), unit := some "lb".toList }

/-- A deal qualifying as priority under `c1cfg`. -/
def c1deal : Deal :=
  { product_name := some "beef".toList, category := some "MEAT".toList,
    price := c1price }

/-- A surviving deal for the C10 witness. -/
def c10deal : Deal :=
  { product_name := some "z".toList, price := { amount := some (1 : ℚ) } }

/-- Well-formed multibuy details: $2 per unit, two required. -/
def c7details : MultibuyDetails :=
  { per_unit_cost := some (2 : ℚ), quantity_required := some 2 }

/-- A multibuy price with missing base amount. -/
def c7price : Price :=
  { amount := none, is_multibuy := true, multibuy_details := some c7details }

/-- A multibuy deal whose raw amount is missing but whose override copy
has one. -/
def c7deal : Deal := { product_name := some "z".toList, price := c7price }

/-- An ordinary (non-multibuy) deal for the C7 witness. -/
def c7wdeal : Deal :=
  { product_name := some "q".toList, price := { amount := some (3 : ℚ) } }

/-- `pyTrunc` agrees with the floor on nonnegative arguments. -/
lemma pyTrunc_eq_floor {x : ℚ} (h : 0 ≤ x) : pyTrunc x = ⌊x⌋ := by
  simp [pyTrunc, h]

/-- `pyTrunc` of a nonpositive argument is nonpositive. -/
lemma pyTrunc_nonpos {x : ℚ} (h : x ≤ 0) : pyTrunc x ≤ 0 := by
  rcases le_or_lt 0 x with h0 | h0
  · have hx0 : x = 0 := le_antisymm h h0
    simp [pyTrunc, hx0]
  · have hn : ¬ (0 ≤ x) := not_le.2 h0
    simp only [pyTrunc, hn, if_false]
    have : 0 ≤ ⌊-x⌋ := Int.floor_nonneg.2 (by linarith)
    omega

/-- Truncating after the rational clamp equals clamping the truncation:
`int(min(20, max(0, x))) = clamp(trunc(x), 0, 20)`. -/
lemma pyTrunc_clamp (x : ℚ) :
    pyTrunc (min 20 (max 0 x)) = max 0 (min 20 (pyTrunc x)) := by
  rcases le_total x 0 with hx | hx
  · have h1 : max (0:ℚ) x = 0 := max_eq_left hx
    have h2 : pyTrunc x ≤ 0 := pyTrunc_nonpos hx
    have h3 : min (20:ℚ) 0 = 0 := by norm_num
    rw [h1, h3, pyTrunc_eq_floor le_rfl]
    simp
    omega
  · have h2 : max (0:ℚ) x = x := max_eq_right hx
    rw [h2]
    have hfx : pyTrunc x = ⌊x⌋ := pyTrunc_eq_floor hx
    rcases le_total (20:ℚ) x with h20 | h20
    · have hmin : min (20:ℚ) x = 20 := min_eq_left h20
      rw [hmin, pyTrunc_eq_floor (by norm_num), hfx]
      have hf : (20:ℤ) ≤ ⌊x⌋ := Int.le_floor.2 (by exact_mod_cast h20)
      have : ⌊(20:ℚ)⌋ = 20 := by norm_num
      omega
    · have hmin : min (20:ℚ) x = x := min_eq_right h20
      rw [hmin, pyTrunc_eq_floor hx]
      have h0 : 0 ≤ ⌊x⌋ := Int.floor_nonneg.2 hx
      have h20' : ⌊x⌋ ≤ 20 := by
        have := Int.floor_le_floor (α := ℚ) h20
        simpa using this
      omega

/-- C2 (counterexample): on a deal that fully matches only the ground-beef
rule (its $5/lb price is above the chicken-breast cap of $3/lb) but whose
name contains the chicken-breast keyword, the code's bonus (30, from the
chicken-breast rule, scanned without re-checking category or price) differs
from the spec's first-fully-matching-rule bonus (20). -/
theorem claim_C2_counterexample :
    get_priority_bonus defaultConfig c2deal ≠ specPriorityBonus defaultConfig c2deal :=
  of_decide_eq_true (by with_unfolding_all rfl)

/-- C2 (amended): for every configuration and deal, the priority bonus is 0
for non-priority deals, and for priority deals it is the bonus of the first
configured rule whose keywords match the lowercased product name with no
exclude-keyword present — category and maximum price per pound are not
re-checked by the bonus scan. -/
theorem claim_C2 (cfg : DealAnalyzerConfig) (deal : Deal) :
    get_priority_bonus cfg deal =
      if is_priority_deal cfg deal then
        priorityBonusScan (toLowerStr (deal.product_name.getD [])) cfg.priority_deals
      else 0 := by
  unfold get_priority_bonus
  cases h : is_priority_deal cfg deal <;> simp [h]

/-- C4 (counterexample): at `savings_percent = 10` the code truncates
`(10-5)*20/55 ≈ 1.82` to 1, while the spec's round-to-nearest gives 2. -/
theorem claim_C4_counterexample :
    calculate_discount_depth c4dealTen ≠ discountDepthSpec c4dealTen :=
  of_decide_eq_true (by with_unfolding_all rfl)

/-- C4 (amended): the discount-depth sub-score is
`clamp(trunc((savings_percent − 5) × 20/55), 0, 20)` — truncation toward
zero, not rounding to the nearest integer — and when `savings_percent` is
absent the same formula applies to the inferred percent provided
`original_price > 0` and additionally `amount ≥ 0`. -/
theorem claim_C4 (deal : Deal) :
    (∀ s : ℚ, deal.price.savings_percent = some s →
      calculate_discount_depth deal = max 0 (min 20 (pyTrunc ((s - 5) * (20 / 55))))) ∧
    (∀ o a : ℚ, deal.price.savings_percent = none →
      deal.price.original_price = some o → deal.price.amount = some a →
      0 < o → 0 ≤ a →
      calculate_discount_depth deal =
        max 0 (min 20 (pyTrunc (((o - a) / o * 100 - 5) * (20 / 55))))) := by
  constructor
  · intro s hs
    simp only [calculate_discount_depth, hs]
    exact pyTrunc_clamp _
  · intro o a hs ho ha h1 h2
    simp only [calculate_discount_depth, hs, ho, ha]
    rw [if_pos (by simp [h1, h2])]
    exact pyTrunc_clamp _

/-- C4 (witness): at `savings_percent = 55` the amended formula applies and
yields 18, as in the claim's example. -/
theorem claim_C4_witness :
    c4dealFiftyFive.price.savings_percent = some 55 ∧
    calculate_discount_depth c4dealFiftyFive = 18 := by
  refine ⟨rfl, ?_⟩
  have h := (claim_C4 c4dealFiftyFive).1 55 rfl
  rw [h]
  with_unfolding_all rfl

/-- C5 (counterexample): a deal priced at `$3.99` scores 10 (the `≤ 4.99`
band alone); the spec's ending list, whose first entry is `".99"`, would add
the round-number bonus and give 18.  The code's first ending is `"0.99"`,
which `"3.99"` does not end with. -/
theorem claim_C5_counterexample :
    calculate_viral_pricing_score c5deal ≠ viralPricingSpec c5deal :=
  of_decide_eq_true (by with_unfolding_all rfl)

/-- C5 (amended): the viral-pricing score is the sum of the price band, the
round-number bonus (whose endings are `0.99, 1.99, 2.49, 2.99, 4.99, 9.99`
as suffixes of the two-decimal amount string, so `3.99` and `5.99` do not
receive it), the multibuy bonus, and the savings bonus, clamped to 30; in
particular it never exceeds 30. -/
theorem claim_C5 (deal : Deal) :
    calculate_viral_pricing_score deal =
      min (viralTier deal + viralRoundBonus deal + viralMultibuyBonus deal
        + viralSavingsBonus deal) 30 ∧
    calculate_viral_pricing_score deal ≤ 30 := by
  have heq : calculate_viral_pricing_score deal =
      min (viralTier deal + viralRoundBonus deal + viralMultibuyBonus deal
        + viralSavingsBonus deal) 30 := by
    simp only [calculate_viral_pricing_score, viralTier, viralRoundBonus,
      viralMultibuyBonus, viralSavingsBonus]
    rcases hA : deal.price.amount with _ | a <;>
      rcases hS : deal.price.savings_percent with _ | s <;>
      simp only [hA, hS] <;> split_ifs <;> ring_nf
  exact ⟨heq, by rw [heq]; exact min_le_right _ _⟩

/-- C6: whenever the price amount is missing, the exclusion reason is
`missing_price_amount` — the price check precedes every other check, for
every configuration and retailer filter. -/
theorem claim_C6 (rf : Option Str) (cfg : DealAnalyzerConfig) (deal : Deal)
    (h : deal.price.amount = none) :
    get_exclusion_reason rf cfg deal = some "missing_price_amount".toList := by
  unfold get_exclusion_reason
  rw [h]

/-- C6 (witness): a deal in category `Beer & Wine` with a missing price
amount reports `missing_price_amount`, not the alcohol reason. -/
theorem claim_C6_witness :
    c6deal.price.amount = none ∧
    get_exclusion_reason none defaultConfig c6deal = some "missing_price_amount".toList :=
  ⟨rfl, claim_C6 none defaultConfig c6deal rfl⟩

/-- C8: on a deal with price amount 4.99 and unit `"3lb"`, the computed
unit price is exactly `499/300` (≈ 1.6633) per pound with display
`"$1.66/lb"`. -/
theorem claim_C8 :
    compute_unit_price c8deal =
      (some (499/300 : ℚ), some "lb".toList, some "$1.66/lb".toList) := by
  with_unfolding_all rfl

/-- The length of a Python slice `l[:n]` is at most `n` when `n ≥ 0`. -/
lemma length_pySlice_le {α : Type} (n : ℤ) (l : List α) (h : 0 ≤ n) :
    ((pySlice n l).length : ℤ) ≤ n := by
  simp only [pySlice, if_pos h]
  have h1 : (l.take n.toNat).length ≤ n.toNat := List.length_take_le _ _
  have h2 : (n.toNat : ℤ) = n := Int.toNat_of_nonneg h
  omega

/-- C3 (counterexample): at `topN = -1` the result list (here of length 0)
is longer than `topN`, so the bound fails for negative `topN` (Python's
slice `lst[:n]` does not clamp a negative bound to zero). -/
theorem claim_C3_counterexample :
    ¬ (((analyze_deals none defaultConfig [c3deal] (-1) none).length : ℤ) ≤ -1) :=
  of_decide_eq_true (by with_unfolding_all rfl)

/-- C3 (amended): for every input list, every `topN ≥ 0`, and either balance
setting, the list returned by `analyze_deals` has length at most `topN`. -/
theorem claim_C3 (rf : Option Str) (cfg : DealAnalyzerConfig) (deals : List Deal)
    (top_n : ℤ) (bal : Option Bool) (h : 0 ≤ top_n) :
    ((analyze_deals rf cfg deals top_n bal).length : ℤ) ≤ top_n := by
  simp only [analyze_deals, selectTop]
  split
  · simpa using h
  · split
    · simpa using h
    · split
      · exact length_pySlice_le _ _ h
      · split
        · exact length_pySlice_le _ _ h
        · exact length_pySlice_le _ _ h

/-- C3 (witness): the amended bound at a concrete surviving deal and
`topN = 2`. -/
theorem claim_C3_witness :
    (0:ℤ) ≤ 2 ∧ ((analyze_deals none defaultConfig [c3deal] 2 none).length : ℤ) ≤ 2 :=
  ⟨by norm_num, claim_C3 none defaultConfig [c3deal] 2 none (by norm_num)⟩

lemma worstStep_some {groups : Str → List Deal} {al : Str → ℕ}
    {acc : Option (Str × Deal)} {c : Str} {x : Str × Deal}
    (h : worstStep groups al acc c = some x) :
    acc = some x ∨ (x.1 = c ∧ 0 < al c) := by
  unfold worstStep at h
  by_cases hc : 0 < al c
  · rw [if_pos hc] at h
    cases hitem : (groups c).get? (al c - 1) with
    | none => rw [hitem] at h; exact Or.inl h
    | some item =>
      rw [hitem] at h
      cases acc with
      | none =>
        simp only [] at h
        cases h
        exact Or.inr ⟨rfl, hc⟩
      | some p =>
        obtain ⟨c', wd⟩ := p
        simp only [] at h
        split at h
        · cases h; exact Or.inr ⟨rfl, hc⟩
        · exact Or.inl h
  · rw [if_neg hc] at h; exact Or.inl h

lemma bestStep_some {groups : Str → List Deal} {avail al : Str → ℕ}
    {acc : Option (Str × Deal)} {c : Str} {x : Str × Deal}
    (h : bestStep groups avail al acc c = some x) :
    acc = some x ∨ (x.1 = c ∧ al c < avail c) := by
  unfold bestStep at h
  by_cases hc : al c < avail c
  · rw [if_pos hc] at h
    cases hitem : (groups c).get? (al c) with
    | none => rw [hitem] at h; exact Or.inl h
    | some cand =>
      rw [hitem] at h
      cases acc with
      | none =>
        simp only [] at h
        cases h
        exact Or.inr ⟨rfl, hc⟩
      | some p =>
        obtain ⟨c', bd⟩ := p
        simp only [] at h
        split at h
        · cases h; exact Or.inr ⟨rfl, hc⟩
        · exact Or.inl h
  · rw [if_neg hc] at h; exact Or.inl h

lemma worstStep_none {groups : Str → List Deal} {al : Str → ℕ}
    {acc : Option (Str × Deal)} {c : Str}
    (h : worstStep groups al acc c = none) :
    acc = none ∧ (al c = 0 ∨ (groups c).get? (al c - 1) = none) := by
  unfold worstStep at h
  by_cases hc : 0 < al c
  · rw [if_pos hc] at h
    cases hitem : (groups c).get? (al c - 1) with
    | none => rw [hitem] at h; exact ⟨h, Or.inr rfl⟩
    | some item =>
      rw [hitem] at h
      cases acc with
      | none => cases h
      | some p =>
        obtain ⟨c', wd⟩ := p
        simp only [] at h
        split at h <;> cases h
  · rw [if_neg hc] at h
    exact ⟨h, Or.inl (by omega)⟩

lemma worstFold_some (groups : Str → List Deal) (al : Str → ℕ) :
    ∀ (cs : List Str) (acc : Option (Str × Deal)) (x : Str × Deal),
      (∀ y, acc = some y → y.1 ∈ categoriesList ∧ 0 < al y.1) →
      (∀ c ∈ cs, c ∈ categoriesList) →
      cs.foldl (worstStep groups al) acc = some x →
      x.1 ∈ categoriesList ∧ 0 < al x.1
  | [], acc, x, hacc, _, h => hacc x h
  | c :: cs, acc, x, hacc, hcs, h => by
    refine worstFold_some groups al cs (worstStep groups al acc c) x ?_ ?_ h
    · intro y hy
      rcases worstStep_some hy with h1 | h2
      · exact hacc y h1
      · exact ⟨h2.1 ▸ hcs c (List.mem_cons_self _ _), h2.1 ▸ h2.2⟩
    · intro c' hc'
      exact hcs c' (List.mem_cons_of_mem _ hc')

lemma bestFold_some (groups : Str → List Deal) (avail al : Str → ℕ) :
    ∀ (cs : List Str) (acc : Option (Str × Deal)) (x : Str × Deal),
      (∀ y, acc = some y → y.1 ∈ categoriesList ∧ al y.1 < avail y.1) →
      (∀ c ∈ cs, c ∈ categoriesList) →
      cs.foldl (bestStep groups avail al) acc = some x →
      x.1 ∈ categoriesList ∧ al x.1 < avail x.1
  | [], acc, x, hacc, _, h => hacc x h
  | c :: cs, acc, x, hacc, hcs, h => by
    refine bestFold_some groups avail al cs (bestStep groups avail al acc c) x ?_ ?_ h
    · intro y hy
      rcases bestStep_some hy with h1 | h2
      · exact hacc y h1
      · exact ⟨h2.1 ▸ hcs c (List.mem_cons_self _ _), h2.1 ▸ h2.2⟩
    · intro c' hc'
      exact hcs c' (List.mem_cons_of_mem _ hc')

lemma worstFold_none (groups : Str → List Deal) (al : Str → ℕ) :
    ∀ (cs : List Str) (acc : Option (Str × Deal)),
      cs.foldl (worstStep groups al) acc = none →
      acc = none ∧ ∀ c ∈ cs, al c = 0 ∨ (groups c).get? (al c - 1) = none
  | [], acc, h => ⟨h, by simp⟩
  | c :: cs, acc, h => by
    obtain ⟨h1, h2⟩ := worstFold_none groups al cs (worstStep groups al acc c) h
    obtain ⟨h3, h4⟩ := worstStep_none h1
    refine ⟨h3, ?_⟩
    intro c' hc'
    rcases List.mem_cons.1 hc' with rfl | hmem
    · exact h4
    · exact h2 c' hmem

lemma worstAllocCat_mem {groups : Str → List Deal} {al : Str → ℕ} {c : Str}
    (h : worstAllocCat groups al = some c) :
    c ∈ categoriesList ∧ 0 < al c := by
  unfold worstAllocCat at h
  obtain ⟨x, hx, hx1⟩ := Option.map_eq_some'.1 h
  have := worstFold_some groups al categoriesList none x
    (by intro y hy; cases hy) (fun c hc => hc) hx
  rw [hx1] at this
  exact this

lemma bestNextCat_mem {groups : Str → List Deal} {avail al : Str → ℕ} {c : Str}
    (h : bestNextCat groups avail al = some c) :
    c ∈ categoriesList ∧ al c < avail c := by
  unfold bestNextCat at h
  obtain ⟨x, hx, hx1⟩ := Option.map_eq_some'.1 h
  have := bestFold_some groups avail al categoriesList none x
    (by intro y hy; cases hy) (fun c hc => hc) hx
  rw [hx1] at this
  exact this

lemma worstAllocCat_none {groups : Str → List Deal} {al : Str → ℕ}
    (hb : ∀ c ∈ categoriesList, al c ≤ (groups c).length)
    (h : worstAllocCat groups al = none) :
    ∀ c ∈ categoriesList, al c = 0 := by
  intro c hc
  unfold worstAllocCat at h
  have hf : categoriesList.foldl (worstStep groups al) none = none :=
    Option.map_eq_none'.1 h
  obtain ⟨-, h2⟩ := worstFold_none groups al categoriesList none hf
  rcases h2 c hc with h0 | hg
  · exact h0
  · by_contra hne
    have hpos : 0 < al c := Nat.pos_of_ne_zero hne
    have hlt : al c - 1 < (groups c).length := by
      have := hb c hc
      omega
    have := List.get?_eq_none.1 hg
    omega

lemma allocTotal_bump {al : Str → ℕ} {c : Str} (hc : c ∈ categoriesList) :
    allocTotal (bumpAlloc al c) = allocTotal al + 1 := by
  fin_cases hc <;>
    simp [allocTotal, categoriesList, bumpAlloc] <;> omega

lemma allocTotal_dec {al : Str → ℕ} {c : Str} (hc : c ∈ categoriesList)
    (hpos : 0 < al c) : allocTotal (decAlloc al c) + 1 = allocTotal al := by
  fin_cases hc <;>
    simp_all [allocTotal, categoriesList, decAlloc] <;> omega

lemma allocTotal_zero {al : Str → ℕ}
    (h : ∀ c ∈ categoriesList, al c = 0) : allocTotal al = 0 := by
  simp [allocTotal, categoriesList]
  refine ⟨h _ ?_, h _ ?_, h _ ?_⟩ <;> simp [categoriesList]

lemma bumpAlloc_le {al avail : Str → ℕ} {c : Str}
    (hb : ∀ x ∈ categoriesList, al x ≤ avail x) (hc : al c < avail c) :
    ∀ x ∈ categoriesList, bumpAlloc al c x ≤ avail x := by
  intro x hx
  unfold bumpAlloc
  split
  · rename_i he; subst he; omega
  · exact hb x hx

lemma decAlloc_le {al avail : Str → ℕ} {c : Str}
    (hb : ∀ x ∈ categoriesList, al x ≤ avail x) :
    ∀ x ∈ categoriesList, decAlloc al c x ≤ avail x := by
  intro x hx
  unfold decAlloc
  split
  · have := hb x hx; omega
  · exact hb x hx

lemma addLoopGo_le {slots : ℕ} {groups : Str → List Deal} {avail : Str → ℕ} :
    ∀ {fuel : ℕ} {al : Str → ℕ},
      allocTotal al ≤ slots → (∀ x ∈ categoriesList, al x ≤ avail x) →
      allocTotal (addLoopGo slots groups avail al fuel) ≤ slots ∧
      ∀ x ∈ categoriesList, addLoopGo slots groups avail al fuel x ≤ avail x
  | 0, al, h, hb => ⟨h, hb⟩
  | fuel + 1, al, h, hb => by
    unfold addLoopGo
    split
    · rename_i hlt
      cases hbc : bestNextCat groups avail al with
      | none => exact ⟨h, hb⟩
      | some c =>
        have hm := bestNextCat_mem hbc
        refine addLoopGo_le ?_ (bumpAlloc_le hb hm.2)
        rw [allocTotal_bump hm.1]
        omega
    · exact ⟨h, hb⟩

lemma removeLoopGo_le {slots : ℕ} {groups : Str → List Deal} :
    ∀ {fuel : ℕ} {al : Str → ℕ},
      (∀ x ∈ categoriesList, al x ≤ (groups x).length) →
      allocTotal (removeLoopGo slots groups al fuel) ≤
        max slots (allocTotal al - fuel) ∧
      ∀ x ∈ categoriesList,
        removeLoopGo slots groups al fuel x ≤ (groups x).length
  | 0, al, hb => ⟨le_max_right slots (allocTotal al), hb⟩
  | fuel + 1, al, hb => by
    unfold removeLoopGo
    split
    · rename_i hgt
      cases hw : worstAllocCat groups al with
      | none =>
        have hz := allocTotal_zero (worstAllocCat_none hb hw)
        omega
      | some c =>
        have hm := worstAllocCat_mem hw
        have hdec := allocTotal_dec hm.1 hm.2
        have ih := @removeLoopGo_le slots groups fuel (decAlloc al c)
          (decAlloc_le hb)
        refine ⟨le_trans ih.1 ?_, ih.2⟩
        omega
    · rename_i hle
      exact ⟨by omega, hb⟩

lemma backfillGo_length_le (ids : List (Option Str)) (slots : ℕ) :
    ∀ (l acc : List Deal),
      (backfillGo ids slots acc l).length ≤ max slots acc.length
  | [], acc => le_max_right _ _
  | d :: rest, acc => by
    unfold backfillGo
    split
    · exact le_max_right _ _
    · rename_i hlen
      split
      · exact backfillGo_length_le ids slots rest acc
      · refine le_trans (backfillGo_length_le ids slots rest (acc ++ [d])) ?_
        simp
        omega

lemma backfillGo_subset (ids : List (Option Str)) (slots : ℕ) :
    ∀ (l acc : List Deal) (x : Deal),
      x ∈ backfillGo ids slots acc l → x ∈ acc ∨ x ∈ l
  | [], acc, x, h => Or.inl h
  | d :: rest, acc, x, h => by
    unfold backfillGo at h
    split at h
    · exact Or.inl h
    · split at h
      · rcases backfillGo_subset ids slots rest acc x h with h1 | h1
        · exact Or.inl h1
        · exact Or.inr (List.mem_cons_of_mem _ h1)
      · rcases backfillGo_subset ids slots rest (acc ++ [d]) x h with h1 | h1
        · rcases List.mem_append.1 h1 with h2 | h2
          · exact Or.inl h2
          · exact Or.inr (List.mem_cons.2 (Or.inl (List.mem_singleton.1 h2)))
        · exact Or.inr (List.mem_cons_of_mem _ h1)

lemma correctedAlloc_le (groups : Str → List Deal) (slots : ℕ) :
    allocTotal (correctedAlloc groups (fun c => (groups c).length) slots) ≤ slots ∧
    ∀ x ∈ categoriesList,
      correctedAlloc groups (fun c => (groups c).length) slots x ≤ (groups x).length := by
  unfold correctedAlloc
  have hcb : ∀ x ∈ categoriesList,
      clampedAlloc (fun c => (groups c).length) slots x ≤ (groups x).length := by
    intro x hx; exact min_le_right _ _
  set avail := fun c => (groups c).length with havail
  set clamped := clampedAlloc avail slots with hclamped
  by_cases h1 : allocTotal clamped < slots
  · simp only [if_pos h1]
    have ha := @addLoopGo_le slots groups avail slots clamped
      (le_of_lt h1) hcb
    by_cases h2 : slots < allocTotal (addLoopGo slots groups avail clamped slots)
    · simp only [if_pos h2]
      have hr := @removeLoopGo_le slots groups
        (allocTotal (addLoopGo slots groups avail clamped slots))
        (addLoopGo slots groups avail clamped slots) ha.2
      refine ⟨le_trans hr.1 ?_, hr.2⟩
      omega
    · simp only [if_neg h2]
      exact ⟨not_lt.1 h2, ha.2⟩
  · simp only [if_neg h1]
    by_cases h2 : slots < allocTotal clamped
    · simp only [if_pos h2]
      have hr := @removeLoopGo_le slots groups
        (allocTotal clamped) clamped hcb
      refine ⟨le_trans hr.1 ?_, hr.2⟩
      omega
    · simp only [if_neg h2]
      exact ⟨not_lt.1 h2, hcb⟩

lemma balancedAlloc_le (groups : Str → List Deal) (slots : ℕ) :
    allocTotal (balancedAlloc groups (fun c => (groups c).length) slots) ≤ slots ∧
    ∀ x ∈ categoriesList,
      balancedAlloc groups (fun c => (groups c).length) slots x ≤ (groups x).length := by
  unfold balancedAlloc
  by_cases h0 : 0 < allocTotal (fun c => (groups c).length)
  · simp only [if_pos h0]
    exact correctedAlloc_le groups slots
  · simp only [if_neg h0]
    exact ⟨by simp [allocTotal, categoriesList], by intro x hx; simp⟩

lemma added0_length_le (groups : Str → List Deal) (al : Str → ℕ) :
    ((categoriesList.map fun c => (groups c).take (al c)).flatten).length ≤
      allocTotal al := by
  have h1 := List.length_take_le (al "Meat/Seafood".toList)
    (groups "Meat/Seafood".toList)
  have h2 := List.length_take_le (al "Produce".toList) (groups "Produce".toList)
  have h3 := List.length_take_le (al "Snacks/Other".toList)
    (groups "Snacks/Other".toList)
  simp [categoriesList, allocTotal]
  omega

lemma balancedAdded_length_le (scored : List Deal) (slots : ℕ) :
    (balancedAdded scored slots).length ≤ slots := by
  simp only [balancedAdded]
  have halloc := balancedAlloc_le (fun c => groupOf scored c) slots
  have hlen := le_trans
    (added0_length_le (fun c => groupOf scored c)
      (balancedAlloc (fun c => groupOf scored c)
        (fun c => (groupOf scored c).length) slots)) halloc.1
  split
  · rename_i hlt
    refine le_trans (backfillGo_length_le _ _ _ _) ?_
    omega
  · exact hlen

lemma added0_subset {scored : List Deal} {al : Str → ℕ} {x : Deal}
    (h : x ∈ (categoriesList.map fun c => (groupOf scored c).take (al c)).flatten) :
    x ∈ scored := by
  obtain ⟨l, hl, hx⟩ := List.mem_flatten.1 h
  obtain ⟨c, -, rfl⟩ := List.mem_map.1 hl
  exact List.mem_of_mem_filter (List.take_subset _ _ hx)

lemma balancedAdded_subset {scored : List Deal} {slots : ℕ} {x : Deal}
    (h : x ∈ balancedAdded scored slots) : x ∈ scored := by
  simp only [balancedAdded] at h
  split at h
  · rcases backfillGo_subset _ _ _ _ _ h with h1 | h1
    · exact added0_subset h1
    · exact h1
  · exact added0_subset h

/-- A Python slice `l[:n]` with `0 ≤ n` and `n` at least the length is all
of `l`. -/
lemma pySlice_of_length_le {α : Type} {n : ℤ} {l : List α} (h : 0 ≤ n)
    (hl : l.length ≤ n.toNat) : pySlice n l = l := by
  simp only [pySlice, if_pos h]
  exact List.take_of_length_le hl

/-- Deduplication of the empty list. -/
lemma dedupeDeals_nil (cfg : DealAnalyzerConfig) : dedupeDeals cfg [] = [] := by
  unfold dedupeDeals dedupeGo
  split <;> rfl

/-- C1: for `topN ≥ 1`, when the priority deals that survive dedup and
exclusion number at most `topN`, every one of them appears in the list
returned by `analyze_deals`; when they exceed `topN`, the result is exactly
the first `topN` priority deals in tie-break order. -/
theorem claim_C1 (rf : Option Str) (cfg : DealAnalyzerConfig)
    (deals : List Deal) (top_n : ℤ) (bal : Option Bool) (h : 1 ≤ top_n) :
    if ((pipelinePriority rf cfg deals).length : ℤ) ≤ top_n then
      ∀ d ∈ pipelinePriority rf cfg deals,
        d ∈ analyze_deals rf cfg deals top_n bal
    else
      analyze_deals rf cfg deals top_n bal =
        pySlice top_n ((pipelinePriority rf cfg deals).mergeSort dealLE) := by
  have htop0 : (0:ℤ) ≤ top_n := by omega
  simp only [analyze_deals]
  by_cases hemp : (dedupeDeals cfg deals).isEmpty
  · have hnil : dedupeDeals cfg deals = [] := List.isEmpty_iff.1 hemp
    have hP : pipelinePriority rf cfg deals = [] := by
      simp [pipelinePriority, pipelineSurvivors, hnil, dedupeDeals_nil,
        survivorsFrom]
    rw [if_pos (by rw [hP]; simpa using htop0)]
    intro d hd
    rw [hP] at hd
    cases hd
  · simp only [hemp, Bool.false_eq_true, if_false]
    -- the selector applied to the pipeline survivors
    have hSurv : survivorsFrom rf cfg (dedupeDeals cfg (dedupeDeals cfg deals)) =
        pipelineSurvivors rf cfg deals := rfl
    rw [hSurv]
    simp only [selectTop]
    set S := pipelineSurvivors rf cfg deals with hS
    set P := S.filter (fun d => d.is_priority.getD false) with hPdef
    set Q := S.filter (fun d => !(d.is_priority.getD false)) with hQdef
    have hPP : pipelinePriority rf cfg deals = P := rfl
    rw [hPP]
    by_cases hempty2 : Q.isEmpty && P.isEmpty
    · have hP : P = [] := List.isEmpty_iff.1 (Bool.and_elim_right hempty2)
      rw [if_pos hempty2]
      rw [if_pos (by rw [hP]; simpa using htop0)]
      intro d hd
      rw [hP] at hd
      cases hd
    · simp only [hempty2, Bool.false_eq_true, if_false]
      have hlenPS : (P.mergeSort dealLE).length = P.length :=
        List.length_mergeSort P
      by_cases hLen : (P.length : ℤ) ≤ top_n
      · rw [if_pos hLen]
        intro d hd
        by_cases hrem : (max 0 (top_n - ((P.mergeSort dealLE).length : ℤ))) ≤ 0
        · rw [if_pos hrem]
          have hPlen : top_n ≤ (P.length : ℤ) := by
            rw [hlenPS] at hrem
            omega
          have heq : (P.length : ℤ) = top_n := le_antisymm hLen hPlen
          have hfull : pySlice top_n (P.mergeSort dealLE) = P.mergeSort dealLE := by
            apply pySlice_of_length_le htop0
            rw [hlenPS]
            omega
          rw [hfull]
          exact List.mem_mergeSort.2 hd
        · rw [if_neg hrem]
          rw [hlenPS] at hrem ⊢
          have hPlt : (P.length : ℤ) < top_n := by omega
          by_cases hbal : !(bal.getD cfg.balance_categories)
          · rw [if_pos hbal]
            have hfull : pySlice top_n
                (P.mergeSort dealLE ++
                  (Q.mergeSort dealLE).take (max 0 (top_n - (P.length : ℤ))).toNat) =
                P.mergeSort dealLE ++
                  (Q.mergeSort dealLE).take (max 0 (top_n - (P.length : ℤ))).toNat := by
              apply pySlice_of_length_le htop0
              have h1 : ((Q.mergeSort dealLE).take
                  (max 0 (top_n - (P.length : ℤ))).toNat).length ≤
                  (max 0 (top_n - (P.length : ℤ))).toNat :=
                List.length_take_le _ _
              simp only [List.length_append, hlenPS]
              omega
            rw [hfull]
            exact List.mem_append_left _ (List.mem_mergeSort.2 hd)
          · rw [if_neg hbal]
            have hadd := balancedAdded_length_le (Q.mergeSort dealLE)
              (max 0 (top_n - (P.length : ℤ))).toNat
            have hfull : pySlice top_n
                ((P.mergeSort dealLE ++
                  balancedAdded (Q.mergeSort dealLE)
                    (max 0 (top_n - (P.length : ℤ))).toNat).mergeSort dealLE) =
                (P.mergeSort dealLE ++
                  balancedAdded (Q.mergeSort dealLE)
                    (max 0 (top_n - (P.length : ℤ))).toNat).mergeSort dealLE := by
              apply pySlice_of_length_le htop0
              rw [List.length_mergeSort]
              simp only [List.length_append, hlenPS]
              omega
            rw [hfull]
            exact List.mem_mergeSort.2
              (List.mem_append_left _ (List.mem_mergeSort.2 hd))
      · rw [if_neg hLen]
        have hrem : (max 0 (top_n - ((P.mergeSort dealLE).length : ℤ))) ≤ 0 := by
          rw [hlenPS]
          omega
        rw [if_pos hrem]

/-- C1 (witness): with one qualifying priority deal and `topN = 3`, the
deal's processed copy appears in the analyzer output. -/
theorem claim_C1_witness :
    (1:ℤ) ≤ 3 ∧
    processDeal c1cfg c1deal ∈ analyze_deals none c1cfg [c1deal] 3 none := by
  refine ⟨by norm_num, ?_⟩
  have h := claim_C1 none c1cfg [c1deal] 3 none (by norm_num)
  rw [if_pos (of_decide_eq_true (by with_unfolding_all rfl))] at h
  exact h _ (of_decide_eq_true (by with_unfolding_all rfl))

/-- Membership through a Python slice. -/
lemma mem_pySlice {α : Type} {n : ℤ} {l : List α} {x : α}
    (h : x ∈ pySlice n l) : x ∈ l := by
  unfold pySlice at h
  split at h <;> exact List.take_subset _ _ h

/-- Every deal in the analyzer output is one of the pipeline survivors. -/
lemma mem_analyze_subset {rf : Option Str} {cfg : DealAnalyzerConfig}
    {deals : List Deal} {top_n : ℤ} {bal : Option Bool} {d : Deal}
    (h : d ∈ analyze_deals rf cfg deals top_n bal) :
    d ∈ pipelineSurvivors rf cfg deals := by
  simp only [analyze_deals] at h
  split at h
  · cases h
  · simp only [selectTop] at h
    split at h
    · cases h
    · split at h
      · exact List.mem_of_mem_filter
          (List.mem_mergeSort.1 (mem_pySlice h))
      · split at h
        · rcases List.mem_append.1 (mem_pySlice h) with h1 | h1
          · exact List.mem_of_mem_filter (List.mem_mergeSort.1 h1)
          · exact List.mem_of_mem_filter
              (List.mem_mergeSort.1 (List.take_subset _ _ h1))
        · rcases List.mem_append.1 (List.mem_mergeSort.1 (mem_pySlice h))
            with h1 | h1
          · exact List.mem_of_mem_filter (List.mem_mergeSort.1 h1)
          · exact List.mem_of_mem_filter
              (List.mem_mergeSort.1 (balancedAdded_subset h1))

/-- Every pipeline survivor is the processed copy of some raw record. -/
lemma pipelineSurvivors_processed {rf : Option Str} {cfg : DealAnalyzerConfig}
    {deals : List Deal} {d : Deal} (h : d ∈ pipelineSurvivors rf cfg deals) :
    ∃ raw, d = processDeal cfg raw := by
  simp only [pipelineSurvivors, survivorsFrom, List.mem_filterMap] at h
  obtain ⟨a, -, ha⟩ := h
  split at ha
  · cases ha
  · exact ⟨a, (Option.some.inj ha).symm⟩

lemma viral_nonneg (d : Deal) : 0 ≤ calculate_viral_pricing_score d := by
  unfold calculate_viral_pricing_score
  rcases hA : d.price.amount with _ | a <;>
    rcases hS : d.price.savings_percent with _ | s <;>
    simp only [hA, hS] <;> split_ifs <;> omega

lemma discount_nonneg (d : Deal) : 0 ≤ calculate_discount_depth d := by
  have key : ∀ x : ℚ, 0 ≤ pyTrunc (min 20 (max 0 x)) := by
    intro x
    rw [pyTrunc_clamp]
    exact le_max_left _ _
  unfold calculate_discount_depth
  rcases hS : d.price.savings_percent with _ | s
  · rcases hO : d.price.original_price with _ | o <;>
      rcases hA : d.price.amount with _ | a <;> simp only [] <;>
      first
        | (split_ifs <;> first | exact key _ | norm_num)
        | norm_num
  · exact key _

lemma lookup_ge_five (tbl : List (Str × ℤ)) (h : ∀ p ∈ tbl, 5 ≤ p.2)
    (k : Str) : 5 ≤ (tbl.lookup k).getD 5 := by
  induction tbl with
  | nil => simp
  | cons p t ih =>
    rw [List.lookup]
    split
    · simpa using h p (List.mem_cons_self _ _)
    · exact ih fun q hq => h q (List.mem_cons_of_mem _ hq)

lemma catweight_ge_five (d : Deal) :
    5 ≤ calculate_category_weight defaultConfig d := by
  unfold calculate_category_weight
  exact lookup_ge_five _ (of_decide_eq_true (by with_unfolding_all rfl)) _

lemma premium_ge_five (cfg : DealAnalyzerConfig) (d : Deal) :
    5 ≤ calculate_premium_value cfg d := by
  unfold calculate_premium_value
  dsimp only
  rcases hS : d.price.savings_percent with _ | s <;>
    simp only [hS] <;> split_ifs <;> norm_num

lemma social_ge_five (cfg : DealAnalyzerConfig) (d : Deal) :
    5 ≤ calculate_social_appeal cfg d := by
  unfold calculate_social_appeal
  dsimp only
  split_ifs <;> norm_num

lemma brand_ge_five (cfg : DealAnalyzerConfig) (d : Deal) :
    5 ≤ calculate_brand_recognition cfg d := by
  unfold calculate_brand_recognition
  dsimp only
  split_ifs <;> norm_num

lemma priorityBonusScan_nonneg {name : Str} {rules : List PriorityRule}
    (h : ∀ r ∈ rules, 0 ≤ r.bonus_score) :
    0 ≤ priorityBonusScan name rules := by
  induction rules with
  | nil => simp [priorityBonusScan]
  | cons r t ih =>
    unfold priorityBonusScan
    split
    · exact h r (List.mem_cons_self _ _)
    · exact ih fun q hq => h q (List.mem_cons_of_mem _ hq)

lemma bonus_nonneg (d : Deal) : 0 ≤ get_priority_bonus defaultConfig d := by
  unfold get_priority_bonus
  split
  · norm_num
  · exact priorityBonusScan_nonneg (of_decide_eq_true (by with_unfolding_all rfl))

lemma total_ge_twenty (d : Deal) : 20 ≤ calculate_total_score defaultConfig d := by
  unfold calculate_total_score
  have h1 := viral_nonneg d
  have h2 := discount_nonneg d
  have h3 := catweight_ge_five d
  have h4 := premium_ge_five defaultConfig d
  have h5 := social_ge_five defaultConfig d
  have h6 := brand_ge_five defaultConfig d
  have h7 := bonus_nonneg d
  omega

/-- C10: every deal returned by `analyze_deals` under the default
configuration has engagement score at least 20, because the category-weight,
premium-value, social-appeal and brand-recognition components are each at
least 5 on every input and the remaining components are nonnegative. -/
theorem claim_C10 (rf : Option Str) (deals : List Deal) (top_n : ℤ)
    (bal : Option Bool) (d : Deal)
    (hd : d ∈ analyze_deals rf defaultConfig deals top_n bal) :
    20 ≤ d.engagement_score.getD 0 := by
  obtain ⟨raw, rfl⟩ := pipelineSurvivors_processed (mem_analyze_subset hd)
  simp only [processDeal, Option.getD_some]
  exact total_ge_twenty _

/-- C10 (witness): the single surviving deal appears in the output and its
engagement score (40) is at least 20. -/
theorem claim_C10_witness :
    processDeal defaultConfig c10deal ∈
      analyze_deals none defaultConfig [c10deal] 1 (some false) ∧
    20 ≤ ((processDeal defaultConfig c10deal).engagement_score).getD 0 := by
  have hm : processDeal defaultConfig c10deal ∈
      analyze_deals none defaultConfig [c10deal] 1 (some false) :=
    of_decide_eq_true (by with_unfolding_all rfl)
  exact ⟨hm, claim_C10 none [c10deal] 1 (some false) _ hm⟩

/-- The dedup loop yields pairwise-distinct keys, none of them in `seen`. -/
lemma dedupeGo_sound : ∀ (seen : List DedupKey) (l : List Deal),
    List.Pairwise (fun a b => dealKey a ≠ dealKey b) (dedupeGo seen l) ∧
    ∀ d ∈ dedupeGo seen l, dealKey d ∉ seen
  | seen, [] => ⟨List.Pairwise.nil, by simp [dedupeGo]⟩
  | seen, d :: t => by
    unfold dedupeGo
    split
    · exact dedupeGo_sound seen t
    · rename_i hd
      obtain ⟨hpw, hmem⟩ := dedupeGo_sound (dealKey d :: seen) t
      constructor
      · refine List.Pairwise.cons ?_ hpw
        intro b hb
        have := hmem b hb
        intro hkey
        exact this (hkey ▸ List.mem_cons_self _ _)
      · intro x hx
        rcases List.mem_cons.1 hx with rfl | hx'
        · exact hd
        · intro hseen
          exact hmem x hx' (List.mem_cons_of_mem _ hseen)

/-- The dedup loop is the identity on key-distinct lists disjoint from
`seen`. -/
lemma dedupeGo_eq_self : ∀ (seen : List DedupKey) (l : List Deal),
    List.Pairwise (fun a b => dealKey a ≠ dealKey b) l →
    (∀ d ∈ l, dealKey d ∉ seen) → dedupeGo seen l = l
  | seen, [], _, _ => rfl
  | seen, d :: t, hpw, hni => by
    unfold dedupeGo
    rw [if_neg (hni d (List.mem_cons_self _ _))]
    congr 1
    refine dedupeGo_eq_self _ t (List.Pairwise.sublist (List.sublist_cons_self _ _) hpw) ?_
    intro x hx
    intro hmem
    rcases List.mem_cons.1 hmem with hk | hk
    · exact (List.pairwise_cons.1 hpw).1 x hx hk.symm
    · exact hni x (List.mem_cons_of_mem _ hx) hk

/-- Deduplication is idempotent. -/
lemma dedupeDeals_idem (cfg : DealAnalyzerConfig) (l : List Deal) :
    dedupeDeals cfg (dedupeDeals cfg l) = dedupeDeals cfg l := by
  unfold dedupeDeals
  split
  · exact dedupeGo_eq_self [] _ (dedupeGo_sound [] l).1 (by simp)
  · rfl

/-- A filtered deduplicated list needs no further deduplication. -/
lemma dedupeDeals_filter (cfg : DealAnalyzerConfig) (l : List Deal)
    (p : Deal → Bool) :
    dedupeDeals cfg ((dedupeDeals cfg l).filter p) =
      (dedupeDeals cfg l).filter p := by
  unfold dedupeDeals
  split
  · exact dedupeGo_eq_self [] _ ((dedupeGo_sound [] l).1.filter p) (by simp)
  · rfl

/-- Pre-filtering drops nothing from a `filterMap` when the dropped
elements map to `none` anyway. -/
lemma filterMap_filter_of_none {α β : Type} (f : α → Option β) (p : α → Bool) :
    ∀ (l : List α), (∀ a ∈ l, p a = false → f a = none) →
    (l.filter p).filterMap f = l.filterMap f
  | [], _ => rfl
  | a :: t, h => by
    have ht := filterMap_filter_of_none f p t
      (fun x hx => h x (List.mem_cons_of_mem _ hx))
    cases hp : p a with
    | true =>
      simp only [List.filter_cons, hp, if_true, List.filterMap_cons]
      cases f a <;> simp [ht]
    | false =>
      simp only [List.filter_cons, hp, Bool.false_eq_true, if_false,
        List.filterMap_cons, h a (List.mem_cons_self _ _) hp]
      exact ht

/-- Pre-filtering by the raw-record exclusion check does not change the
survivor list, provided every deal kept on its override copy is also kept
raw. -/
lemma survivors_filter_keep {rf : Option Str} {cfg : DealAnalyzerConfig}
    {l : List Deal}
    (H : ∀ d ∈ l, get_exclusion_reason rf cfg (applyMultibuyOverrides d) = none →
      get_exclusion_reason rf cfg d = none) :
    survivorsFrom rf cfg
        (l.filter fun d => (get_exclusion_reason rf cfg d).isNone) =
      survivorsFrom rf cfg l := by
  unfold survivorsFrom
  apply filterMap_filter_of_none
  intro a ha hp
  by_cases he : should_exclude rf cfg (applyMultibuyOverrides a)
  · simp [he]
  · exfalso
    have hnone : get_exclusion_reason rf cfg (applyMultibuyOverrides a) = none := by
      unfold should_exclude at he
      exact Option.not_isSome_iff_eq_none.1 he
    have := H a ha hnone
    rw [this] at hp
    simp at hp

/-- The selector on no survivors returns the empty list. -/
lemma selectTop_nil (top_n : ℤ) (bal : Bool) : selectTop [] top_n bal = [] := rfl

/-- C7 (amended): the scored list returned by `analyze_deals_debug` equals
the one returned by `analyze_deals` PROVIDED every deduped record that the
exclusion filter keeps on its multibuy-override copy is also kept on the
raw record — `analyze_deals` decides exclusion on the override copy while
the debug variant decides it on the raw record. -/
theorem claim_C7 (rf : Option Str) (cfg : DealAnalyzerConfig)
    (deals : List Deal) (top_n : ℤ) (bal : Option Bool)
    (H : ∀ d ∈ dedupeDeals cfg deals,
      get_exclusion_reason rf cfg (applyMultibuyOverrides d) = none →
      get_exclusion_reason rf cfg d = none) :
    (analyze_deals_debug rf cfg deals top_n bal).1 =
      analyze_deals rf cfg deals top_n bal := by
  have hrw : ∀ (l : List Deal), analyze_deals rf cfg l top_n bal =
      if (dedupeDeals cfg l).isEmpty then []
      else selectTop (survivorsFrom rf cfg (dedupeDeals cfg (dedupeDeals cfg l)))
        top_n (bal.getD cfg.balance_categories) := fun l => rfl
  simp only [analyze_deals_debug]
  set D1 := dedupeDeals cfg deals with hD1
  set kept := D1.filter (fun d => (get_exclusion_reason rf cfg d).isNone)
    with hkept
  have hdk : dedupeDeals cfg kept = kept := dedupeDeals_filter cfg deals _
  have hsurv : survivorsFrom rf cfg kept = survivorsFrom rf cfg D1 :=
    survivors_filter_keep H
  rw [hrw kept, hrw deals, hdk, hdk,
    show dedupeDeals cfg D1 = D1 from dedupeDeals_idem cfg deals, hsurv]
  by_cases hke : kept.isEmpty
  · rw [if_pos hke]
    by_cases hD : D1.isEmpty
    · rw [if_pos hD]
    · rw [if_neg hD, ← hsurv, List.isEmpty_iff.1 hke]
      rfl
  · rw [if_neg hke]
    have hD : ¬ D1.isEmpty = true := by
      intro hD
      apply hke
      rw [hkept, List.isEmpty_iff.1 hD]
      rfl
    rw [if_neg hD]

/-- C7 (counterexample): on a multibuy deal with a missing raw amount but a
valid per-unit cost, `analyze_deals` keeps the deal (exclusion is decided on
the override copy) while `analyze_deals_debug` drops it with
`missing_price_amount` (exclusion is decided on the raw record), so the two
scored lists differ. -/
theorem claim_C7_counterexample :
    (analyze_deals_debug none defaultConfig [c7deal] 1 (some false)).1 ≠
      analyze_deals none defaultConfig [c7deal] 1 (some false) :=
  of_decide_eq_true (by with_unfolding_all rfl)

/-- C7 (witness): on a non-multibuy deal the side condition holds and the
two entry points agree. -/
theorem claim_C7_witness :
    (∀ d ∈ dedupeDeals defaultConfig [c7wdeal],
      get_exclusion_reason none defaultConfig (applyMultibuyOverrides d) = none →
      get_exclusion_reason none defaultConfig d = none) ∧
    (analyze_deals_debug none defaultConfig [c7wdeal] 2 (some false)).1 =
      analyze_deals none defaultConfig [c7wdeal] 2 (some false) := by
  have hH : ∀ d ∈ dedupeDeals defaultConfig [c7wdeal],
      get_exclusion_reason none defaultConfig (applyMultibuyOverrides d) = none →
      get_exclusion_reason none defaultConfig d = none :=
    of_decide_eq_true (by with_unfolding_all rfl)
  exact ⟨hH, claim_C7 none defaultConfig [c7wdeal] 2 (some false) hH⟩
